import Mathlib

/-!
Shallow embedding of the Property24 scraper core
(`src/backend/scraper/scraper.py`, class `Property24Scraper`).

Pure text processing (the regular-expression field extraction) is translated
character-by-character from the source patterns; HTML documents are modelled
as the data the scraper reads off them: a fragment carries its flattened text,
the hrefs of its anchors in document order, its image tags, its styled
elements and its embedded JSON scripts.  Exceptions raised while processing
one image tag or styled element are modelled by a dedicated constructor, and
the source's try/except placement is translated into `Except`.
-/

/-- Python `\s` character class (ASCII part), as matched by the `re` patterns
of the scraper; the listing texts involved contain only plain spaces. -/
def isPySpace (c : Char) : Bool :=
  c = ' ' || c = '\t' || c = '\n' || c = '\r' || c.toNat = 11 || c.toNat = 12

/-- Value of a nonempty digit string, as `int()` computes it. -/
def natOfDigits (ds : List Char) : Nat :=
  ds.foldl (fun a c => a * 10 + (c.toNat - 48)) 0

/-- Python's substring containment `needle in hay`. -/
def listContainsSub : List Char → List Char → Bool
  | hay, needle =>
    needle.isPrefixOf hay ||
      match hay with
      | [] => false
      | _ :: t => listContainsSub t needle

/-- Substring containment on strings (`pat in s` in Python). -/
def strContains (s pat : String) : Bool :=
  listContainsSub s.data pat.data

/-- Python `s.startswith(pre)`. -/
def strStartsWith (s pre : String) : Bool :=
  pre.data.isPrefixOf s.data

/-- Python `s.lower()` on the character lists involved. -/
def lowerChars (cs : List Char) : List Char :=
  cs.map Char.toLower

/-- Python `s.lower()` as a string. -/
def pyLower (s : String) : String :=
  ⟨lowerChars s.data⟩

/- ### The price pattern `R\s*(\d{1,3}(?:[\s,]*\d{3})+)` -/

/-- One iteration of the grouped-thousands part `[\s,]*\d{3}`: a maximal run
of separators followed by exactly three digits.  Maximal munch on the
separator class is exact because separators and digits are disjoint. -/
def priceGroupIter (cs : List Char) : Option (List Char × List Char) :=
  let seps := cs.takeWhile (fun c => isPySpace c || c = ',')
  let rest := cs.dropWhile (fun c => isPySpace c || c = ',')
  match rest with
  | d1 :: d2 :: d3 :: rest2 =>
    if d1.isDigit && d2.isDigit && d3.isDigit then some (seps ++ [d1, d2, d3], rest2)
    else none
  | _ => none

/-- Greedily repeated `[\s,]*\d{3}` iterations (zero or more); nothing follows
the group in the pattern, so the greedy iteration count needs no backtracking.
The fuel argument is passed as the length of the input, which bounds the
number of iterations since each consumes at least three characters. -/
def priceGroupsMaxFuel : Nat → List Char → List Char
  | 0, _ => []
  | fuel + 1, cs =>
    match priceGroupIter cs with
    | some (g, rest) => g ++ priceGroupsMaxFuel fuel rest
    | none => []

/-- Attempt `\d{1,3}` with exactly `k` digits followed by at least one
`[\s,]*\d{3}` group, returning the capture-group characters. -/
def tryPriceK (k : Nat) (cs : List Char) : Option (List Char) :=
  let ds := cs.take k
  if ds.length = k && ds.all Char.isDigit then
    let rest := cs.drop k
    match priceGroupIter rest with
    | some (g1, rest1) => some (ds ++ g1 ++ priceGroupsMaxFuel rest1.length rest1)
    | none => none
  else none

/-- Match the full price pattern at the head of the input: literal `R`, then
`\s*` (maximal, exact since whitespace and digits are disjoint), then the
capture group; `\d{1,3}` backtracks greedily from three digits down to one. -/
def matchPriceAt (cs : List Char) : Option (List Char) :=
  match cs with
  | 'R' :: rest =>
    let body := rest.dropWhile isPySpace
    match tryPriceK 3 body with
    | some g => some g
    | none =>
      match tryPriceK 2 body with
      | some g => some g
      | none => tryPriceK 1 body
  | _ => none

/-- `re.search` of the price pattern: leftmost starting position wins. -/
def priceSearch : List Char → Option (List Char)
  | [] => none
  | c :: rest =>
    match matchPriceAt (c :: rest) with
    | some g => some g
    | none => priceSearch rest

/- ### The patterns `(\d+)\s*[Bb]ed`, `(\d+)\s*[Bb]ath`, `(\d+)\s*m[²2]` -/

/-- Match a list of character classes against a prefix of the input. -/
def matchClasses : List (Char → Bool) → List Char → Bool
  | [], _ => true
  | _ :: _, [] => false
  | p :: ps, c :: cs => p c && matchClasses ps cs

/-- Match `(\d+)\s*<suffix>` at the head of the input.  `\d+` and `\s*` are
maximal munch, exact because a digit, a whitespace character and the first
suffix class (a letter) are pairwise disjoint. -/
def numThenAt (suffix : List (Char → Bool)) (cs : List Char) : Option Nat :=
  let ds := cs.takeWhile Char.isDigit
  if ds.isEmpty then none
  else
    let rest := (cs.dropWhile Char.isDigit).dropWhile isPySpace
    if matchClasses suffix rest then some (natOfDigits ds) else none

/-- `re.search` for `(\d+)\s*<suffix>`: leftmost starting position wins. -/
def numThenSearch (suffix : List (Char → Bool)) : List Char → Option Nat
  | [] => none
  | c :: rest =>
    match numThenAt suffix (c :: rest) with
    | some n => some n
    | none => numThenSearch suffix rest

/-- Suffix `[Bb]ed` of the bedrooms pattern. -/
def bedTail : List (Char → Bool) :=
  [fun c => c = 'B' || c = 'b', fun c => c = 'e', fun c => c = 'd']

/-- Suffix `[Bb]ath` of the bathrooms pattern. -/
def bathTail : List (Char → Bool) :=
  [fun c => c = 'B' || c = 'b', fun c => c = 'a', fun c => c = 't', fun c => c = 'h']

/-- Suffix `m[²2]` of the size pattern, with `re.IGNORECASE` on the letter. -/
def sizeTail : List (Char → Bool) :=
  [fun c => c = 'm' || c = 'M', fun c => c = '²' || c = '2']

/- ### Feature patterns with an optional `[\s-]?` separator -/

/-- Match `<w1>[\s-]?<w2>` at the head of the input.  The optional class never
needs backtracking because none of its characters can begin `w2`. -/
def optSepAt (w1 w2 : List Char) (cs : List Char) : Bool :=
  w1.isPrefixOf cs &&
    (let rest := cs.drop w1.length
     w2.isPrefixOf rest ||
       match rest with
       | c :: rest2 => (isPySpace c || c = '-') && w2.isPrefixOf rest2
       | [] => false)

/-- `re.search` for `<w1>[\s-]?<w2>`. -/
def optSepSearch (w1 w2 : List Char) : List Char → Bool
  | [] => optSepAt w1 w2 []
  | c :: rest => optSepAt w1 w2 (c :: rest) || optSepSearch w1 w2 rest

/-- The feature-keyword scan over the lowercased text, in the declaration
order of `feature_patterns` (scraper.py lines 334-348). -/
def featuresOf (tl : List Char) : List String :=
  (if listContainsSub tl "pool".data then ["Pool"] else []) ++
  (if listContainsSub tl "garage".data || listContainsSub tl "parking".data then ["Parking"] else []) ++
  (if listContainsSub tl "garden".data then ["Garden"] else []) ++
  (if listContainsSub tl "security".data then ["Security"] else []) ++
  (if listContainsSub tl "balcony".data then ["Balcony"] else []) ++
  (if optSepSearch "pet".data "friendly".data tl then ["Pet Friendly"] else []) ++
  (if listContainsSub tl "furnished".data then ["Furnished"] else []) ++
  (if optSepSearch "sea".data "view".data tl || optSepSearch "ocean".data "view".data tl then ["Sea Views"] else []) ++
  (if optSepSearch "mountain".data "view".data tl then ["Mountain Views"] else [])

/- ### Data read off a listing fragment's markup -/

/-- A decoded JSON value, as returned by `json.loads` for a payload the
scraper walks; numbers are modelled as integers (no claim involves floats). -/
inductive PyJson where
  | null
  | bool (b : Bool)
  | num (n : Int)
  | str (s : String)
  | list (items : List PyJson)
  | dict (entries : List (String × PyJson))

/-- An `img` tag of the fragment (method 1 of `extract_property_images`):
its class strings, its `data-src` and `src` attribute values, or `throws`
if processing this tag raises an exception. -/
inductive ImgTag where
  | tag (cls : List String) (dataSrc src : Option String)
  | throws
deriving DecidableEq

/-- A styled element of the fragment (method 2): its `style` attribute value,
or `throws` if processing this element raises an exception. -/
inductive BgEl where
  | el (style : String)
  | throws
deriving DecidableEq

/-- A `script type="application/json"` element (method 3): either its decoded
payload, or `malformed` when `json.loads` raises on its content. -/
inductive ScriptTag where
  | parsed (j : PyJson)
  | malformed

/-- A ListingFragment: the container element handed to
`_extract_property_data_enhanced`, carrying its flattened text, the hrefs of
its anchors carrying an href attribute in document order, and the material
the Image Resolver reads. -/
structure Fragment where
  text : String
  anchors : List String
  imgs : List ImgTag
  bgEls : List BgEl
  scripts : List ScriptTag

/- ### The Image Resolver (`extract_property_images`, lines 49-135) -/

/-- URL resolution of lines 72-73 and 86-87. -/
def resolveImgUrl (u : String) : String :=
  if strStartsWith u "http" then u
  else if strStartsWith u "//" then "https:" ++ u
  else "https://www.property24.com" ++ u

/-- Python `a or b` on optional strings: an empty string is falsy. -/
def pyOrStr : Option String → Option String → Option String
  | some s, b => if s = "" then b else some s
  | none, b => b

/-- Method 1: the img-tag loop of lines 57-77, in `Except` because an
exception while processing one tag aborts the outer `try`. -/
def method1Imgs : List ImgTag → List String → Except Unit (List String)
  | [], acc => .ok acc
  | .throws :: _, _ => .error ()
  | .tag cls ds src :: rest, acc =>
    if cls.any (fun c => strContains c "icon") then method1Imgs rest acc
    else
      match pyOrStr ds src with
      | none => method1Imgs rest acc
      | some u =>
        if u = "" then method1Imgs rest acc
        else if strContains u "data:image" || strContains u "placeholder" then method1Imgs rest acc
        else
          let u2 := resolveImgUrl u
          if strContains u2 "property24" || strContains u2 "listing" ||
              strContains u2 "property" || strContains u2 "p24" then
            method1Imgs rest (acc ++ [u2])
          else method1Imgs rest acc

/-- A double quote (code 34) or a single quote (code 39), the quote class of
the style url pattern. -/
def isQuoteChar (c : Char) : Bool :=
  c.toNat = 34 || c.toNat = 39

/-- Prefix of a character run up to its last closing parenthesis, exclusive:
the backtracking of the greedy nonempty non-quote group when the run is not
followed by an optional quote and a closing parenthesis. -/
def lastParenSplit : List Char → Option (List Char)
  | [] => none
  | c :: rest =>
    match lastParenSplit rest with
    | some tail => some (c :: tail)
    | none => if c = ')' then some [] else none

/-- Match the tail of the style pattern right after a `url(` marker: an
optional quote (consumption is forced when a quote is present, since the
following group excludes quotes), then the greedy nonempty run of non-quote
characters, backtracked until an optional quote and a closing parenthesis
follow. -/
def bgUrlAfter (cs : List Char) : Option (List Char) :=
  let cs2 :=
    match cs with
    | c :: rest => if isQuoteChar c then rest else cs
    | [] => cs
  let run := cs2.takeWhile (fun c => !isQuoteChar c)
  let after := cs2.drop run.length
  if run.isEmpty then none
  else
    match after with
    | c :: rest2 =>
      if isQuoteChar c && (match rest2 with | ')' :: _ => true | _ => false) then some run
      else
        match lastParenSplit run with
        | some (x :: xs) => some (x :: xs)
        | _ => none
    | [] =>
      match lastParenSplit run with
      | some (x :: xs) => some (x :: xs)
      | _ => none

/-- `re.search` of the url(...) pattern of line 83 over a style value:
leftmost `url(` occurrence completing a match wins. -/
def bgUrlSearch : List Char → Option (List Char)
  | [] => none
  | c :: rest =>
    if "url(".data.isPrefixOf (c :: rest) then
      match bgUrlAfter ((c :: rest).drop 4) with
      | some g => some g
      | none => bgUrlSearch rest
    else bgUrlSearch rest

/-- Method 2: the background-image loop of lines 80-89; only elements whose
style attribute contains the marker are visited by `find_all`. -/
def method2Bg : List BgEl → List String → Except Unit (List String)
  | [], acc => .ok acc
  | .throws :: _, _ => .error ()
  | .el style :: rest, acc =>
    if listContainsSub style.data "background-image".data then
      match bgUrlSearch style.data with
      | some g =>
        let u2 := resolveImgUrl ⟨g⟩
        if strContains u2 "property" || strContains u2 "listing" then method2Bg rest (acc ++ [u2])
        else method2Bg rest acc
      | none => method2Bg rest acc
    else method2Bg rest acc

/-- The key set of `_extract_images_from_json` (line 123). -/
def isTargetKey (k : String) : Bool :=
  k = "images" || k = "gallery" || k = "photos" || k = "imageUrl" || k = "image"

/-- Python `'url' in item` / `item['url']` on a decoded JSON object. -/
def dictUrl : List (String × PyJson) → Option PyJson
  | [] => none
  | (k, v) :: rest => if k = "url" then some v else dictUrl rest

/-- Items of a key-matched JSON list (lines 124-129): strings starting with
http are collected, and object entries contribute their url field.  Url
fields are modelled as strings, the only shape the site emits; the source
would append a non-string value unchanged and deduplicate it by the same
equality, which no claim distinguishes. -/
def collectItems : List PyJson → List String
  | [] => []
  | .str s :: rest => if strStartsWith s "http" then s :: collectItems rest else collectItems rest
  | .dict entries :: rest =>
    (match dictUrl entries with
     | some (.str u) => u :: collectItems rest
     | some _ => collectItems rest
     | none => collectItems rest)
  | _ :: rest => collectItems rest

/-- The dict loop of `_extract_images_from_json` (lines 121-131): a
key-matched entry whose value is a list contributes its items; any other
dict or list value is recursed into at depth + 1. -/
def walkEntries (recurse : PyJson → List String → List String) :
    List (String × PyJson) → List String → List String
  | [], images => images
  | (k, v) :: rest, images =>
    let images2 :=
      if isTargetKey k then
        match v with
        | .list items => images ++ collectItems items
        | _ => images
      else
        match v with
        | .dict _ => recurse v images
        | .list _ => recurse v images
        | _ => images
    walkEntries recurse rest images2

/-- The list branch of `_extract_images_from_json` (lines 132-135): only
dict items are recursed into, at depth + 1. -/
def walkItems (recurse : PyJson → List String → List String) :
    List PyJson → List String → List String
  | [], images => images
  | item :: rest, images =>
    let images2 :=
      match item with
      | .dict _ => recurse item images
      | _ => images
    walkItems recurse rest images2

/-- `_extract_images_from_json` itself.  The first argument is the remaining
depth budget, equal to 6 - depth: the source checks `depth > 5` at entry and
recurses with depth + 1, and the top-level call of line 98 passes depth 0,
hence budget 6. -/
def walkJson : Nat → PyJson → List String → List String
  | 0, _, images => images
  | b + 1, data, images =>
    match data with
    | .dict entries => walkEntries (walkJson b) entries images
    | .list items => walkItems (walkJson b) items images
    | _ => images

/-- Method 3: the script loop of lines 92-100; `json.loads` failures are
caught per script by the inner `except`, and only a dict payload is walked. -/
def method3Scripts : List ScriptTag → List String → List String
  | [], acc => acc
  | .malformed :: rest, acc => method3Scripts rest acc
  | .parsed j :: rest, acc =>
    match j with
    | .dict _ => method3Scripts rest (walkJson 6 j acc)
    | _ => method3Scripts rest acc

/-- The concatenated candidates of the three strategies, inside the outer
`try` of lines 55-110: an exception in method 1 or 2 aborts the whole
computation. -/
def imageCandidates (e : Fragment) : Except Unit (List String) :=
  match method1Imgs e.imgs [] with
  | .error u => .error u
  | .ok a =>
    match method2Bg e.bgEls a with
    | .error u => .error u
    | .ok b => .ok (method3Scripts e.scripts b)

/-- The order-preserving deduplication loop of lines 103-108. -/
def dedupFirstAux : List String → List String → List String
  | [], _ => []
  | x :: rest, seen =>
    if x ∈ seen then dedupFirstAux rest seen else x :: dedupFirstAux rest (x :: seen)

/-- `extract_property_images` (lines 49-114): deduplicate preserving first
occurrence, truncate to five; the outer `except` of lines 112-114 turns any
strategy exception into an empty result. -/
def extract_property_images (e : Fragment) : List String :=
  match imageCandidates e with
  | .ok imgs => (dedupFirstAux imgs []).take 5
  | .error _ => []

/- ### The Field Extractor (`_extract_property_data_enhanced`, lines 267-363) -/

/-- A PartialRecord: the Python dict built by the extractor.  The price field
distinguishes an absent key (`int()` raised on the matched group, line 285)
from a key holding `None` (the development branch, line 288). -/
structure PropertyData where
  price : Option (Option Nat)
  bedrooms : Option Nat
  bathrooms : Option Nat
  size_sqm : Option Nat
  type : String
  url : Option String
  images : Option (List String)
  highlights : Option (List String)
  title : String
  neighborhood_vibe : Option String
  area : Option String
  selector_used : Option String
deriving DecidableEq

/-- The price step (lines 280-291): on a pattern match, strip commas and
spaces from the group and parse; other separators (tabs and such) make
`int()` raise, which line 285 swallows, leaving the price key absent.  With
no match, a development keyword yields a `None` price and a Development type
tag; otherwise the fragment is rejected. -/
def priceStep (text : List Char) : Option (Option (Option Nat) × Option String) :=
  match priceSearch text with
  | some g =>
    let cleaned := g.filter (fun c => !(c = ',' || c = ' '))
    if cleaned.all Char.isDigit then some (some (some (natOfDigits cleaned)), none)
    else some (none, none)
  | none =>
    if listContainsSub (lowerChars text) "development".data then some (some none, some "Development")
    else none

/-- Lines 293-363: everything after the price gate; no rejection can occur
past that point. -/
def buildRecord (el : Fragment) (ei : Bool) (price : Option (Option Nat))
    (tyTag : Option String) : PropertyData :=
  let text := el.text.data
  let bedrooms := numThenSearch bedTail text
  let bathrooms := numThenSearch bathTail text
  let size_sqm := numThenSearch sizeTail text
  let tl := lowerChars text
  let ty :=
    if listContainsSub tl "apartment".data || listContainsSub tl "flat".data then "Apartment"
    else if listContainsSub tl "house".data then "House"
    else if listContainsSub tl "townhouse".data then "Townhouse"
    else tyTag.getD "Property"
  let url :=
    match el.anchors.head? with
    | some href =>
      if strContains href "/for-sale/" then
        some (if strStartsWith href "http" then href else "https://www.property24.com" ++ href)
      else none
    | none => none
  let images :=
    if ei then
      let imgs := extract_property_images el
      if imgs.isEmpty then none else some imgs
    else none
  let highlights :=
    let fs := featuresOf tl
    if fs.isEmpty then none else some fs
  let title :=
    match bedrooms with
    | some b => if b ≠ 0 then toString b ++ " Bedroom " ++ ty else ty
    | none => ty
  let vibe :=
    if listContainsSub tl "walking distance".data then some "Walking distance to amenities"
    else none
  { price := price, bedrooms := bedrooms, bathrooms := bathrooms, size_sqm := size_sqm,
    type := ty, url := url, images := images, highlights := highlights, title := title,
    neighborhood_vibe := vibe, area := none, selector_used := none }

/-- `_extract_property_data_enhanced`: length gate, price gate, then the
record assembly. -/
def extract_property_data_enhanced (el : Fragment) (ei : Bool) : Option PropertyData :=
  if el.text.length < 30 ∨ el.text.length > 2000 then none
  else
    match priceStep el.text.data with
    | none => none
    | some (price, tyTag) => some (buildRecord el ei price tyTag)

/- ### The Page Assembler (`_extract_all_properties_from_page`, lines 216-265) -/

/-- The same-page DedupKey of line 258: `prop.get` collapses an absent key
and a key holding `None` to the same value. -/
def dedupKey (p : PropertyData) : Option Nat × Option Nat × Option Nat :=
  (p.price.join, p.bedrooms, p.size_sqm)

/-- The selector-and-element loop of lines 240-263, over the discovery
sequence of (selector, resolved container) pairs.  The input list models what
`soup.select` yields for each selector of the fixed list, after the parent
walk of lines 246-251 resolved anchors to containers, in discovery order
across selectors then elements: the locator reads an opaque HTML document,
which the embedding represents by its output. -/
def pageAux : List (String × Fragment) → String → Bool →
    List (Option Nat × Option Nat × Option Nat) → List PropertyData
  | [], _, _, _ => []
  | (selector, container) :: rest, area, ei, seen =>
    match extract_property_data_enhanced container ei with
    | some prop =>
      let key := dedupKey prop
      if key ∈ seen then pageAux rest area ei seen
      else { prop with area := some area, selector_used := some selector } ::
        pageAux rest area ei (key :: seen)
    | none => pageAux rest area ei seen

/-- `_extract_all_properties_from_page`: starts with an empty key set. -/
def extract_all_properties_from_page (found : List (String × Fragment)) (area : String)
    (ei : Bool) : List PropertyData :=
  pageAux found area ei []

/- ### The Pagination Controller (`scrape_area`, lines 137-214) -/

/-- Outcome of fetching and parsing one page: `ok` carries the discovery
sequence the Page Assembler receives; `fail` models a non-200 status or any
exception inside the per-page `try`, both of which break the loop. -/
inductive FetchResult where
  | ok (found : List (String × Fragment))
  | fail

/-- The PaginationState: lines 155-158. -/
structure ScrapeState where
  allProps : List PropertyData
  seenUrls : List String
  consec : Nat
  page : Nat
deriving DecidableEq

/-- The cross-page filter of lines 188-196: a record whose url (defaulted to
the empty string by `prop.get`) is nonempty and unseen is kept and its url
recorded; a record with an empty or missing url is always kept; any other
record is dropped.  Returns the kept records and the updated url set. -/
def filterNewAux : List PropertyData → List String → List PropertyData × List String
  | [], seen => ([], seen)
  | prop :: rest, seen =>
    let u := prop.url.getD ""
    if u ≠ "" ∧ u ∉ seen then
      let r := filterNewAux rest (u :: seen)
      (prop :: r.1, r.2)
    else if u = "" then
      let r := filterNewAux rest seen
      (prop :: r.1, r.2)
    else filterNewAux rest seen

/-- One loop iteration after a successful fetch (lines 185-206): filter the
page's records, then either extend the output and reset the empty-page
counter, or increment it; the page number always advances. -/
def scrape_step (area : String) (ei : Bool) (s : ScrapeState)
    (found : List (String × Fragment)) : ScrapeState :=
  let pageProps := extract_all_properties_from_page found area ei
  let pr := filterNewAux pageProps s.seenUrls
  if pr.1.isEmpty then
    { s with seenUrls := pr.2, consec := s.consec + 1, page := s.page + 1 }
  else
    { allProps := s.allProps ++ pr.1, seenUrls := pr.2, consec := 0, page := s.page + 1 }

/-- The page-ceiling break of line 166: Python truthiness makes a `None` or
zero `max_pages` impose no ceiling. -/
def ceilingBlocks (maxPages : Option Nat) (page : Nat) : Bool :=
  match maxPages with
  | some m => decide (m ≠ 0) && decide (page > m)
  | none => false

/-- The `while True` loop of lines 162-211, driven by a page-indexed fetch
oracle (the page URL of lines 170-172 is determined by the page number within
one run) and a fuel bound on the number of iterations examined; every claim
about the loop is proved for all fuel values.  Returns the final state and
the list of page numbers fetched. -/
def scrape_loop (fetch : Nat → FetchResult) (area : String) (ei : Bool)
    (maxPages : Option Nat) : Nat → ScrapeState → ScrapeState × List Nat
  | 0, s => (s, [])
  | fuel + 1, s =>
    if s.consec ≥ 2 then (s, [])
    else if ceilingBlocks maxPages s.page then (s, [])
    else
      match fetch s.page with
      | .fail => (s, [s.page])
      | .ok found =>
        let r := scrape_loop fetch area ei maxPages fuel (scrape_step area ei s found)
        (r.1, s.page :: r.2)

/-- The area-code table of lines 21-33. -/
def PROPERTY24_AREA_CODES : List (String × Nat) :=
  [("sea-point", 11021), ("green-point", 11017), ("camps-bay", 11014), ("clifton", 11015),
   ("fresnaye", 11016), ("mouille-point", 11018), ("de-waterkant", 9141), ("gardens", 9145),
   ("oranjezicht", 9155), ("tamboerskloof", 9163), ("vredehoek", 9166)]

/-- The normalization of line 148: lowercase, then spaces and underscores to
hyphens (the replacements are single-character, hence per-character). -/
def normalizeArea (a : String) : String :=
  ⟨a.data.map (fun c => let c2 := c.toLower; if c2 = ' ' ∨ c2 = '_' then '-' else c2)⟩

/-- `scrape_area` (lines 137-214): an unknown area returns empty without any
fetch (no table entry is zero, so Python falsiness is plain absence);
otherwise the loop runs from page 1 with empty state. -/
def scrape_area (fetch : Nat → FetchResult) (area : String) (maxPages : Option Nat)
    (ei : Bool) (fuel : Nat) : List PropertyData × List Nat :=
  match PROPERTY24_AREA_CODES.find? (fun p => p.1 = normalizeArea area) with
  | none => ([], [])
  | some _ =>
    let r := scrape_loop fetch area ei maxPages fuel ⟨[], [], 0, 1⟩
    (r.1.allProps, r.2)

/- ### Helper lemmas on the deduplication loop of the Image Resolver -/

theorem dedupFirstAux_not_mem_seen : ∀ (l seen : List String) (x : String),
    x ∈ dedupFirstAux l seen → x ∉ seen := by
  intro l
  induction l with
  | nil => intro seen x h; simp [dedupFirstAux] at h
  | cons a rest ih =>
    intro seen x h
    simp only [dedupFirstAux] at h
    by_cases ha : a ∈ seen
    · rw [if_pos ha] at h
      exact ih seen x h
    · rw [if_neg ha] at h
      rcases List.mem_cons.mp h with rfl | h2
      · exact ha
      · intro hx
        exact ih _ x h2 (List.mem_cons_of_mem a hx)

theorem dedupFirstAux_nodup : ∀ (l seen : List String), (dedupFirstAux l seen).Nodup := by
  intro l
  induction l with
  | nil => intro seen; simp [dedupFirstAux]
  | cons a rest ih =>
    intro seen
    simp only [dedupFirstAux]
    by_cases ha : a ∈ seen
    · rw [if_pos ha]
      exact ih seen
    · rw [if_neg ha]
      refine List.nodup_cons.mpr ⟨?_, ih _⟩
      intro hmem
      exact dedupFirstAux_not_mem_seen rest (a :: seen) a hmem (List.mem_cons_self a seen)

theorem dedupFirstAux_sublist : ∀ (l seen : List String), (dedupFirstAux l seen).Sublist l := by
  intro l
  induction l with
  | nil => intro seen; simp [dedupFirstAux]
  | cons a rest ih =>
    intro seen
    simp only [dedupFirstAux]
    by_cases ha : a ∈ seen
    · rw [if_pos ha]
      exact List.Sublist.cons a (ih seen)
    · rw [if_neg ha]
      exact List.Sublist.cons₂ a (ih (a :: seen))

/- ### Helper lemmas on strategy exceptions -/

theorem method1Imgs_error_of_throws : ∀ (l : List ImgTag) (acc : List String),
    ImgTag.throws ∈ l → method1Imgs l acc = .error () := by
  intro l
  induction l with
  | nil => intro acc h; simp at h
  | cons a rest ih =>
    intro acc h
    cases a with
    | throws => rfl
    | tag cls ds src =>
      have h2 : ImgTag.throws ∈ rest := by
        rcases List.mem_cons.mp h with h1 | h1
        · exact absurd h1 (by simp)
        · exact h1
      simp only [method1Imgs]
      repeat' split
      all_goals exact ih _ h2

theorem method2Bg_error_of_throws : ∀ (l : List BgEl) (acc : List String),
    BgEl.throws ∈ l → method2Bg l acc = .error () := by
  intro l
  induction l with
  | nil => intro acc h; simp at h
  | cons a rest ih =>
    intro acc h
    cases a with
    | throws => rfl
    | el style =>
      have h2 : BgEl.throws ∈ rest := by
        rcases List.mem_cons.mp h with h1 | h1
        · exact absurd h1 (by simp)
        · exact h1
      simp only [method2Bg]
      repeat' split
      all_goals exact ih _ h2

/- ### Claim C8 -/

/-- Claim C8: for every fragment, the Image Resolver's output has length at
most five, contains no duplicate URL strings (deduplication is by exact
string equality keeping the first occurrence, so the output is a sublist of
the gathered candidates), for every fragment. -/
theorem c8_image_resolver_bounds : ∀ e : Fragment,
    (extract_property_images e).length ≤ 5 ∧ (extract_property_images e).Nodup ∧
      ∀ l, imageCandidates e = Except.ok l → (extract_property_images e).Sublist l := by
  intro e
  unfold extract_property_images
  cases h : imageCandidates e with
  | error u => simp
  | ok imgs =>
    refine ⟨List.length_take_le 5 _, ?_, ?_⟩
    · exact (dedupFirstAux_nodup imgs []).sublist (List.take_sublist 5 _)
    · intro l hl
      have he : imgs = l := Except.ok.inj hl
      subst he
      simp only []
      exact (List.take_sublist 5 _).trans (dedupFirstAux_sublist imgs [])

/-- Fragment whose only strategy-1 image tag yields one listing image URL. -/
def fragC8 : Fragment :=
  ⟨"", [], [ImgTag.tag [] (some "//img.property24.com/a.jpg") none], [], []⟩

theorem c8_image_resolver_bounds_witness :
    (extract_property_images fragC8).length ≤ 5 ∧ (extract_property_images fragC8).Nodup ∧
      (extract_property_images fragC8).Sublist ["https://img.property24.com/a.jpg"] :=
  ⟨(c8_image_resolver_bounds fragC8).1, (c8_image_resolver_bounds fragC8).2.1,
    (c8_image_resolver_bounds fragC8).2.2 ["https://img.property24.com/a.jpg"] rfl⟩

/- ### Claim C6 -/

/-- Fragment whose image tag yields a URL and whose style strategy raises. -/
def fragC6bad : Fragment :=
  ⟨"", [], [ImgTag.tag [] (some "//img.property24.com/a.jpg") none], [BgEl.throws], []⟩

/-- Fragment identical to `fragC6bad` but without the raising style element. -/
def fragC6ok : Fragment :=
  ⟨"", [], [ImgTag.tag [] (some "//img.property24.com/a.jpg") none], [], []⟩

/-- Claim C6 counterexample: an exception in the style strategy does not skip
only that strategy — it makes the resolver return the empty list, discarding
the URL the tag strategy had already gathered (the same fragment without the
raising element returns that URL). -/
theorem c6_counterexample :
    extract_property_images fragC6bad = [] ∧
      extract_property_images fragC6ok = ["https://img.property24.com/a.jpg"] := by
  constructor
  · rfl
  · rfl

/-- Claim C6 amended: a malformed embedded-data script is skipped
individually, leaving the result unchanged; but an exception while processing
any image tag or style element aborts the whole resolver, which returns the
empty list (no exception ever propagates: the resolver is a total function
into plain lists). -/
theorem c6_image_errors_amended : ∀ e e2 : Fragment,
    ImgTag.throws ∈ e2.imgs ∨ BgEl.throws ∈ e2.bgEls →
    (extract_property_images { e with scripts := ScriptTag.malformed :: e.scripts } =
        extract_property_images e ∧
      extract_property_images e2 = []) := by
  intro e e2 h
  constructor
  · unfold extract_property_images imageCandidates
    simp only [method3Scripts]
  · unfold extract_property_images imageCandidates
    rcases h with h | h
    · rw [method1Imgs_error_of_throws e2.imgs [] h]
    · cases hm : method1Imgs e2.imgs [] with
      | error u => rfl
      | ok a => simp [method2Bg_error_of_throws e2.bgEls a h]

theorem c6_image_errors_amended_witness :
    (extract_property_images { fragC6ok with scripts := ScriptTag.malformed :: fragC6ok.scripts } =
        extract_property_images fragC6ok) ∧
      extract_property_images fragC6bad = [] :=
  c6_image_errors_amended fragC6ok fragC6bad (Or.inr (by decide))

/- ### Helper lemmas on the Page Assembler -/

theorem dedupKey_stamp (prop : PropertyData) (a s : String) :
    dedupKey { prop with area := some a, selector_used := some s } = dedupKey prop := rfl

theorem pageAux_keys : ∀ (found : List (String × Fragment)) (area : String) (ei : Bool)
    (seen : List (Option Nat × Option Nat × Option Nat)),
    (∀ p ∈ pageAux found area ei seen, dedupKey p ∉ seen) ∧
      (pageAux found area ei seen).Pairwise (fun a b => dedupKey a ≠ dedupKey b) := by
  intro found
  induction found with
  | nil =>
    intro area ei seen
    constructor
    · intro p hp
      simp [pageAux] at hp
    · simp [pageAux]
  | cons hd rest ih =>
    intro area ei seen
    obtain ⟨sel, frag⟩ := hd
    cases hx : extract_property_data_enhanced frag ei with
    | none =>
      simp only [pageAux, hx]
      exact ih area ei seen
    | some prop =>
      by_cases hk : dedupKey prop ∈ seen
      · simp only [pageAux, hx, if_pos hk]
        exact ih area ei seen
      · simp only [pageAux, hx, if_neg hk]
        obtain ⟨ih1, ih2⟩ := ih area ei (dedupKey prop :: seen)
        constructor
        · intro p hp
          rcases List.mem_cons.mp hp with rfl | hp2
          · rw [dedupKey_stamp]
            exact hk
          · intro hin
            exact ih1 p hp2 (List.mem_cons_of_mem _ hin)
        · refine List.pairwise_cons.mpr ⟨?_, ih2⟩
          intro b hb
          have hnb := ih1 b hb
          rw [dedupKey_stamp]
          intro heq
          exact hnb (heq ▸ List.mem_cons_self _ _)

/- ### Claim C2 -/

/-- First fragment of the same-key page scenario. -/
def fragC2a : Fragment :=
  ⟨"R 1 200 000 2 Bed 1 Bath 85m² sunny and bright", [], [], [], []⟩

/-- Second fragment of the same-key page scenario: a different record (other
bathroom count) with the identical (price, bedrooms, size_sqm) key. -/
def fragC2b : Fragment :=
  ⟨"R 1 200 000 2 Bed 2 Bath 85m² needs a refresh inside", [], [], [], []⟩

/-- Claim C2: the Page Assembler's output never holds two records with an
identical (price, bedrooms, size_sqm) key, and when two fragments on the same
page yield the identical key only the first-discovered record is kept. -/
theorem c2_page_assembler_unique :
    (∀ (found : List (String × Fragment)) (area : String) (ei : Bool),
      (extract_all_properties_from_page found area ei).Pairwise
        (fun a b => dedupKey a ≠ dedupKey b)) ∧
      (extract_all_properties_from_page [("sel1", fragC2a), ("sel2", fragC2b)]
          "sea-point" false).map (fun p => (dedupKey p, p.selector_used)) =
        [((some 1200000, some 2, some 85), some "sel1")] := by
  constructor
  · intro found area ei
    exact (pageAux_keys found area ei []).2
  · decide

theorem c2_page_assembler_unique_witness :
    (extract_all_properties_from_page [("sel1", fragC2a)] "green-point" true).Pairwise
      (fun a b => dedupKey a ≠ dedupKey b) :=
  c2_page_assembler_unique.1 [("sel1", fragC2a)] "green-point" true

/- ### Helper lemmas on the cross-page filter -/

/-- Two records do not claim the same present URL: either one is URL-less
(the empty default of `prop.get`) or their URLs differ. -/
def urlRel (a b : PropertyData) : Prop :=
  a.url.getD "" = "" ∨ b.url.getD "" = "" ∨ a.url.getD "" ≠ b.url.getD ""

theorem filterNewAux_sublist : ∀ (props : List PropertyData) (seen : List String),
    (filterNewAux props seen).1.Sublist props := by
  intro props
  induction props with
  | nil => intro seen; simp [filterNewAux]
  | cons p rest ih =>
    intro seen
    simp only [filterNewAux]
    by_cases h1 : p.url.getD "" ≠ "" ∧ p.url.getD "" ∉ seen
    · rw [if_pos h1]
      exact List.Sublist.cons₂ p (ih _)
    · rw [if_neg h1]
      by_cases h2 : p.url.getD "" = ""
      · rw [if_pos h2]
        exact List.Sublist.cons₂ p (ih _)
      · rw [if_neg h2]
        exact List.Sublist.cons p (ih _)

theorem filterNewAux_keeps_urlless : ∀ (props : List PropertyData) (seen : List String),
    (filterNewAux props seen).1.filter (fun p => p.url.getD "" == "") =
      props.filter (fun p => p.url.getD "" == "") := by
  intro props
  induction props with
  | nil => intro seen; simp [filterNewAux]
  | cons p rest ih =>
    intro seen
    simp only [filterNewAux]
    by_cases h1 : p.url.getD "" ≠ "" ∧ p.url.getD "" ∉ seen
    · rw [if_pos h1]
      have hne : (p.url.getD "" == "") = false := by
        simp [h1.1]
      simp [List.filter_cons, hne, ih]
    · rw [if_neg h1]
      by_cases h2 : p.url.getD "" = ""
      · rw [if_pos h2]
        have heq : (p.url.getD "" == "") = true := by simp [h2]
        simp [List.filter_cons, heq, ih]
      · rw [if_neg h2]
        have hne : (p.url.getD "" == "") = false := by simp [h2]
        simp [List.filter_cons, hne, ih]

theorem filterNewAux_spec : ∀ (props : List PropertyData) (seen : List String),
    ((filterNewAux props seen).1.Pairwise urlRel) ∧
      (∀ p ∈ (filterNewAux props seen).1, p.url.getD "" ≠ "" →
        p.url.getD "" ∉ seen ∧ p.url.getD "" ∈ (filterNewAux props seen).2) ∧
      (∀ u ∈ seen, u ∈ (filterNewAux props seen).2) := by
  intro props
  induction props with
  | nil =>
    intro seen
    refine ⟨by simp [filterNewAux], ?_, ?_⟩
    · intro p hp
      simp [filterNewAux] at hp
    · intro u hu
      simpa [filterNewAux] using hu
  | cons p rest ih =>
    intro seen
    simp only [filterNewAux]
    by_cases h1 : p.url.getD "" ≠ "" ∧ p.url.getD "" ∉ seen
    · rw [if_pos h1]
      obtain ⟨ihP, ihM, ihS⟩ := ih (p.url.getD "" :: seen)
      refine ⟨?_, ?_, ?_⟩
      · refine List.pairwise_cons.mpr ⟨?_, ihP⟩
        intro b hb
        by_cases hbe : b.url.getD "" = ""
        · exact Or.inr (Or.inl hbe)
        · have hnb := (ihM b hb hbe).1
          refine Or.inr (Or.inr ?_)
          intro heq
          exact hnb (heq ▸ List.mem_cons_self _ _)
      · intro q hq hqu
        rcases List.mem_cons.mp hq with rfl | hq2
        · exact ⟨h1.2, ihS _ (List.mem_cons_self _ _)⟩
        · have := ihM q hq2 hqu
          exact ⟨fun hin => this.1 (List.mem_cons_of_mem _ hin), this.2⟩
      · intro u hu
        exact ihS u (List.mem_cons_of_mem _ hu)
    · rw [if_neg h1]
      by_cases h2 : p.url.getD "" = ""
      · rw [if_pos h2]
        obtain ⟨ihP, ihM, ihS⟩ := ih seen
        refine ⟨?_, ?_, ?_⟩
        · exact List.pairwise_cons.mpr ⟨fun b _ => Or.inl h2, ihP⟩
        · intro q hq hqu
          rcases List.mem_cons.mp hq with rfl | hq2
          · exact absurd h2 hqu
          · exact ihM q hq2 hqu
        · exact ihS
      · rw [if_neg h2]
        exact ih seen

theorem filterNewAux_nil_seen : ∀ (props : List PropertyData) (seen : List String),
    (filterNewAux props seen).1 = [] → (filterNewAux props seen).2 = seen := by
  intro props
  induction props with
  | nil => intro seen _; rfl
  | cons p rest ih =>
    intro seen h
    simp only [filterNewAux] at h ⊢
    by_cases h1 : p.url.getD "" ≠ "" ∧ p.url.getD "" ∉ seen
    · rw [if_pos h1] at h
      exact absurd h (by simp)
    · rw [if_neg h1] at h ⊢
      by_cases h2 : p.url.getD "" = ""
      · rw [if_pos h2] at h
        exact absurd h (by simp)
      · rw [if_neg h2] at h ⊢
        exact ih seen h

/- ### The cross-page invariant over the pagination loop -/

/-- Run invariant: emitted records are pairwise URL-distinct when both URLs
are present, and every present URL has been recorded in the seen set. -/
def GoodState (s : ScrapeState) : Prop :=
  s.allProps.Pairwise urlRel ∧
    ∀ p ∈ s.allProps, p.url.getD "" ≠ "" → p.url.getD "" ∈ s.seenUrls

theorem scrape_step_good (area : String) (ei : Bool) (s : ScrapeState)
    (found : List (String × Fragment)) (h : GoodState s) :
    GoodState (scrape_step area ei s found) := by
  obtain ⟨hP, hM⟩ := h
  obtain ⟨fP, fM, fS⟩ :=
    filterNewAux_spec (extract_all_properties_from_page found area ei) s.seenUrls
  unfold scrape_step
  by_cases he :
      (filterNewAux (extract_all_properties_from_page found area ei) s.seenUrls).1.isEmpty
  · rw [if_pos he]
    refine ⟨hP, ?_⟩
    intro p hp hpu
    exact fS _ (hM p hp hpu)
  · rw [if_neg he]
    constructor
    · refine List.pairwise_append.mpr ⟨hP, fP, ?_⟩
      intro a ha b hb
      by_cases hae : a.url.getD "" = ""
      · exact Or.inl hae
      · by_cases hbe : b.url.getD "" = ""
        · exact Or.inr (Or.inl hbe)
        · refine Or.inr (Or.inr ?_)
          intro heq
          exact (fM b hb hbe).1 (heq ▸ hM a ha hae)
    · intro p hp hpu
      rcases List.mem_append.mp hp with hp1 | hp2
      · exact fS _ (hM p hp1 hpu)
      · exact (fM p hp2 hpu).2

theorem scrape_loop_good : ∀ (fuel : Nat) (fetch : Nat → FetchResult) (area : String)
    (ei : Bool) (mp : Option Nat) (s : ScrapeState), GoodState s →
    GoodState (scrape_loop fetch area ei mp fuel s).1 := by
  intro fuel
  induction fuel with
  | zero => intro _ _ _ _ s h; exact h
  | succ n ih =>
    intro fetch area ei mp s h
    simp only [scrape_loop]
    by_cases h1 : s.consec ≥ 2
    · rw [if_pos h1]
      exact h
    · rw [if_neg h1]
      by_cases h2 : ceilingBlocks mp s.page
      · simp only [h2, if_true]
        exact h
      · simp only [eq_false h2, if_false]
        cases hf : fetch s.page with
        | fail => exact h
        | ok found => exact ih fetch area ei mp _ (scrape_step_good area ei s found h)

/- ### Claim C3 -/

/-- Claim C3: within one area run, records carrying a present URL are
pairwise URL-distinct across the whole run, and a record with an absent URL
is never dropped by the cross-page filter. -/
theorem c3_cross_page_url_invariant :
    (∀ (fetch : Nat → FetchResult) (area : String) (mp : Option Nat) (ei : Bool) (fuel : Nat),
      ((scrape_area fetch area mp ei fuel).1).Pairwise urlRel) ∧
      (∀ (props : List PropertyData) (seen : List String),
        (filterNewAux props seen).1.filter (fun p => p.url.getD "" == "") =
          props.filter (fun p => p.url.getD "" == "")) := by
  constructor
  · intro fetch area mp ei fuel
    unfold scrape_area
    cases hfind : PROPERTY24_AREA_CODES.find? (fun p => p.1 = normalizeArea area) with
    | none => simp
    | some c =>
      exact (scrape_loop_good fuel fetch area ei mp ⟨[], [], 0, 1⟩
        ⟨List.Pairwise.nil, by simp⟩).1
  · exact filterNewAux_keeps_urlless

theorem c3_cross_page_url_invariant_witness :
    ((scrape_area (fun _ => FetchResult.ok []) "sea-point" none false 4).1).Pairwise urlRel :=
  c3_cross_page_url_invariant.1 (fun _ => FetchResult.ok []) "sea-point" none false 4

/- ### Claim C1 -/

/-- Page-1 fragment of the cross-page key scenario. -/
def fragC1a : Fragment :=
  ⟨"R 1 250 000 2 Bed 1 Bath 85m² close to beachfront cafes", ["/for-sale/a"], [], [], []⟩

/-- Page-2 fragment with the identical (price, bedrooms, size_sqm) key and a
different listing URL. -/
def fragC1b : Fragment :=
  ⟨"R 1 250 000 2 Bed 1 Bath 85m² stunning pad near the shore", ["/for-sale/b"], [], [], []⟩

/-- Fetch oracle serving one of the two fragments on pages 1 and 2 and empty
pages afterwards. -/
def fetchC1 : Nat → FetchResult := fun n =>
  if n = 1 then .ok [("sel1", fragC1a)]
  else if n = 2 then .ok [("sel1", fragC1b)]
  else .ok []

/-- Claim C1 counterexample: one `scrape_area` run emits two records sharing
the DedupKey tuple (1250000, 2, 85) although both carry present (and
distinct) URLs — the key set of the Page Assembler is page-local, and across
pages only URLs are deduplicated. -/
theorem c1_counterexample :
    ((scrape_area fetchC1 "sea-point" none true 8).1.map (fun p => (dedupKey p, p.url))) =
      [((some 1250000, some 2, some 85), some "https://www.property24.com/for-sale/a"),
       ((some 1250000, some 2, some 85), some "https://www.property24.com/for-sale/b")] := by
  decide

/-- Claim C1 amended: the DedupKey-uniqueness invariant is page-local — the
batch of records a single page contributes to a run never holds two records
with an identical (price, bedrooms, size_sqm) key; across pages only URLs
are deduplicated, so records of different pages may share a key even with
present URLs (as the counterexample exhibits). -/
theorem c1_page_local_key_invariant : ∀ (found : List (String × Fragment)) (area : String)
    (ei : Bool) (seen : List String),
    ((filterNewAux (extract_all_properties_from_page found area ei) seen).1).Pairwise
      (fun a b => dedupKey a ≠ dedupKey b) :=
  fun found area ei seen =>
    ((pageAux_keys found area ei []).2).sublist
      (filterNewAux_sublist (extract_all_properties_from_page found area ei) seen)

theorem c1_page_local_key_invariant_witness :
    ((filterNewAux (extract_all_properties_from_page [("sel1", fragC1a)] "sea-point" true) []).1).Pairwise
      (fun a b => dedupKey a ≠ dedupKey b) :=
  c1_page_local_key_invariant [("sel1", fragC1a)] "sea-point" true []

/- ### Claim C7 -/

theorem scrape_step_of_empty (area : String) (ei : Bool) (s : ScrapeState)
    (found : List (String × Fragment))
    (h : (filterNewAux (extract_all_properties_from_page found area ei) s.seenUrls).1 = []) :
    scrape_step area ei s found = { s with consec := s.consec + 1, page := s.page + 1 } := by
  unfold scrape_step
  rw [if_pos (by simp [h])]
  rw [filterNewAux_nil_seen _ _ h]

/-- Claim C7: with the counter at zero, two consecutive pages yielding zero
new-by-URL records make the controller stop right after the second — the
fetched pages are exactly those two, for every fuel bound and ceiling that
would still have allowed the pages after them; a page yielding at least one
new record resets the counter to zero, and an empty one increments it. -/
theorem c7_two_empty_pages_stop : ∀ (fetch : Nat → FetchResult) (area : String) (ei : Bool)
    (mp : Option Nat) (fuel : Nat) (s : ScrapeState)
    (found1 found2 found3 : List (String × Fragment)),
    s.consec = 0 →
    ceilingBlocks mp s.page = false →
    ceilingBlocks mp (s.page + 1) = false →
    ceilingBlocks mp (s.page + 2) = false →
    fetch s.page = .ok found1 →
    (filterNewAux (extract_all_properties_from_page found1 area ei) s.seenUrls).1 = [] →
    fetch (s.page + 1) = .ok found2 →
    (filterNewAux (extract_all_properties_from_page found2 area ei) s.seenUrls).1 = [] →
    (filterNewAux (extract_all_properties_from_page found3 area ei) s.seenUrls).1 ≠ [] →
    ((scrape_loop fetch area ei mp (fuel + 3) s).2 = [s.page, s.page + 1] ∧
      (scrape_step area ei s found3).consec = 0 ∧
      (scrape_step area ei s found2).consec = s.consec + 1) := by
  intro fetch area ei mp fuel s f1 f2 f3 hc hcb1 hcb2 hcb3 hf1 hn1 hf2 hn2 hn3
  have hs1 : scrape_step area ei s f1 = { s with consec := s.consec + 1, page := s.page + 1 } :=
    scrape_step_of_empty area ei s f1 hn1
  have hs2 : scrape_step area ei { s with consec := s.consec + 1, page := s.page + 1 } f2 =
      { s with consec := s.consec + 2, page := s.page + 2 } := by
    have := scrape_step_of_empty area ei
      { s with consec := s.consec + 1, page := s.page + 1 } f2 hn2
    simpa using this
  refine ⟨?_, ?_, ?_⟩
  · have h1 : ¬ s.consec ≥ 2 := by omega
    conv in fuel + 3 => rw [show fuel + 3 = (fuel + 2) + 1 from rfl]
    simp only [scrape_loop, if_neg h1, hcb1, Bool.false_eq_true, if_false, hf1, hs1]
    have h2 : ¬ s.consec + 1 ≥ 2 := by omega
    simp only [scrape_loop, if_neg h2, hcb2, Bool.false_eq_true, if_false, hf2, hs2]
    have h3 : s.consec + 2 ≥ 2 := by omega
    simp only [scrape_loop, if_pos h3]
  · unfold scrape_step
    rw [if_neg (by simpa using hn3)]
  · rw [scrape_step_of_empty area ei s f2 hn2]

/-- Fragment for the C7 witness: a URL-less listing, which always counts as
new. -/
def fragC7 : Fragment :=
  ⟨"R 1 250 000 2 Bed 1 Bath 85m² Pool Security", [], [], [], []⟩

theorem c7_two_empty_pages_stop_witness :
    ((scrape_loop (fun _ => FetchResult.ok []) "sea-point" false (some 10) 3
        ⟨[], [], 0, 1⟩).2 = [1, 1 + 1] ∧
      (scrape_step "sea-point" false ⟨[], [], 0, 1⟩ [("sel1", fragC7)]).consec = 0 ∧
      (scrape_step "sea-point" false ⟨[], [], 0, 1⟩ []).consec = 0 + 1) :=
  c7_two_empty_pages_stop (fun _ => FetchResult.ok []) "sea-point" false (some 10) 0
    ⟨[], [], 0, 1⟩ [] [] [("sel1", fragC7)] rfl (by decide) (by decide) (by decide) rfl
    (by decide) rfl (by decide) (by decide)

/- ### Claim C4 -/

/-- Fragment with no price, a development keyword and an apartment keyword. -/
def fragC4 : Fragment :=
  ⟨"new development of luxury apartment units coming soon here", [], [], [], []⟩

/-- Claim C4 counterexample: a priceless development fragment whose text also
holds an apartment keyword is emitted with the price left absent but with its
Development tag overwritten to Apartment by the keyword step — the
preservation of the tag lives only in the default branch of lines 309-317. -/
theorem c4_counterexample :
    (extract_property_data_enhanced fragC4 false).map (fun r => (r.price, r.type)) =
      some (some none, "Apartment") := by
  decide

/-- Claim C4 amended: a fragment without a price match but with a development
keyword is emitted with price absent and type tagged Development, and the
keyword step preserves that tag exactly when the text contains none of the
keywords apartment, flat, house, townhouse; when one of them is present the
tag is overwritten. -/
theorem c4_development_tag_amended : ∀ (el : Fragment) (ei : Bool),
    ¬ (el.text.length < 30 ∨ el.text.length > 2000) →
    priceSearch el.text.data = none →
    listContainsSub (lowerChars el.text.data) "development".data = true →
    listContainsSub (lowerChars el.text.data) "apartment".data = false →
    listContainsSub (lowerChars el.text.data) "flat".data = false →
    listContainsSub (lowerChars el.text.data) "house".data = false →
    listContainsSub (lowerChars el.text.data) "townhouse".data = false →
    (extract_property_data_enhanced el ei).map (fun r => (r.price, r.type)) =
      some (some none, "Development") := by
  intro el ei hlen hp hdev ha hf hh ht
  unfold extract_property_data_enhanced
  rw [if_neg hlen]
  unfold priceStep
  rw [hp]
  simp only [hdev, if_true]
  unfold buildRecord
  simp only [ha, hf, hh, ht, Bool.false_eq_true, Bool.or_self, if_false, Option.map_some]
  rfl

/-- Fragment with a development keyword and none of the type keywords. -/
def fragC4w : Fragment :=
  ⟨"brand new development with sea views and pools galore", [], [], [], []⟩

theorem c4_development_tag_amended_witness :
    (extract_property_data_enhanced fragC4w false).map (fun r => (r.price, r.type)) =
      some (some none, "Development") :=
  c4_development_tag_amended fragC4w false (by decide) (by decide) (by decide) (by decide)
    (by decide) (by decide) (by decide)

/- ### Claim C5 -/

/-- Fragment whose first anchor is not a for-sale link while a later anchor
is. -/
def fragC5 : Fragment :=
  ⟨"R 1 100 000 2 Bed 1 Bath 75m² near the promenade shops",
   ["/agency/blue-sky", "/for-sale/sea-point/12345"], [], [], []⟩

/-- Claim C5 counterexample: the record's url is absent although an anchor of
the fragment does contain the for-sale marker — the code inspects only the
first anchor carrying an href (line 320) and checks the marker on that one,
rather than searching for the first anchor whose target contains the
marker. -/
theorem c5_counterexample :
    ((extract_property_data_enhanced fragC5 false).map (fun r => r.url) = some none) ∧
      fragC5.anchors.any (fun h => strContains h "/for-sale/") = true := by
  constructor
  · decide
  · decide

/-- Claim C5 amended: the url field is determined by the first anchor
carrying an href: when that anchor's target contains the for-sale marker the
url is that target, resolved against the site origin when relative, and the
url is absent otherwise (no anchor at all, or a first anchor without the
marker) — later anchors are never consulted. -/
theorem c5_url_first_anchor_amended : ∀ (el : Fragment) (ei : Bool) (r : PropertyData),
    extract_property_data_enhanced el ei = some r →
    r.url = (match el.anchors.head? with
      | some href =>
        if strContains href "/for-sale/" then
          some (if strStartsWith href "http" then href
            else "https://www.property24.com" ++ href)
        else none
      | none => none) := by
  intro el ei r h
  unfold extract_property_data_enhanced at h
  by_cases hlen : el.text.length < 30 ∨ el.text.length > 2000
  · rw [if_pos hlen] at h
    exact absurd h (by simp)
  · rw [if_neg hlen] at h
    cases hp : priceStep el.text.data with
    | none =>
      rw [hp] at h
      exact absurd h (by simp)
    | some pt =>
      rw [hp] at h
      obtain ⟨price, tyTag⟩ := pt
      have hr : buildRecord el ei price tyTag = r := by
        simpa using h
      rw [← hr]
      rfl

/- ### Claim C9 -/

/-- The scenario fragment of the spec. -/
def fragC9 : Fragment :=
  ⟨"R 1 250 000 2 Bed 1 Bath 85m² Pool Security", [], [], [], []⟩

/-- The record the spec scenario expects for `fragC9`. -/
def recC9 : PropertyData :=
  { price := some (some 1250000), bedrooms := some 2, bathrooms := some 1,
    size_sqm := some 85, type := "Property", url := none, images := none,
    highlights := some ["Pool", "Security"], title := "2 Bedroom Property",
    neighborhood_vibe := none, area := none, selector_used := none }

/-- Claim C9: the Field Extractor maps the scenario text to price 1250000,
bedrooms 2, bathrooms 1, size 85, highlights Pool then Security, type
Property and title 2 Bedroom Property. -/
theorem c9_scenario_extraction :
    extract_property_data_enhanced fragC9 true = some recC9 := by
  decide

theorem c5_url_first_anchor_amended_witness :
    recC9.url = (match fragC9.anchors.head? with
      | some href =>
        if strContains href "/for-sale/" then
          some (if strStartsWith href "http" then href
            else "https://www.property24.com" ++ href)
        else none
      | none => none) :=
  c5_url_first_anchor_amended fragC9 true recC9 (by decide)

/- ### Claim C10 -/

/-- Claim C10: an emitted record never carries an empty images or highlights
sequence — the images key exists only when image extraction was enabled and
at least one URL was resolved, the highlights key only when at least one
feature keyword matched, and with extraction disabled the images key is
always absent. -/
theorem c10_no_empty_optional_fields : ∀ (el : Fragment) (ei : Bool) (r : PropertyData),
    extract_property_data_enhanced el ei = some r →
    ((∀ l, r.images = some l → l ≠ [] ∧ ei = true) ∧
      (∀ l, r.highlights = some l → l ≠ []) ∧
      (ei = false → r.images = none)) := by
  intro el ei r h
  unfold extract_property_data_enhanced at h
  by_cases hlen : el.text.length < 30 ∨ el.text.length > 2000
  · rw [if_pos hlen] at h
    exact absurd h (by simp)
  · rw [if_neg hlen] at h
    cases hp : priceStep el.text.data with
    | none =>
      rw [hp] at h
      exact absurd h (by simp)
    | some pt =>
      rw [hp] at h
      obtain ⟨price, tyTag⟩ := pt
      have hr : buildRecord el ei price tyTag = r := by
        simpa using h
      subst hr
      refine ⟨?_, ?_, ?_⟩
      · intro l hl
        cases ei with
        | false => exact absurd hl (by simp [buildRecord])
        | true =>
          refine ⟨?_, rfl⟩
          by_cases he : (extract_property_images el).isEmpty
          · exact absurd hl (by simp [buildRecord, he])
          · have : l = extract_property_images el := by
              have := hl
              simp [buildRecord, he] at this
              exact this.symm
            rw [this]
            exact fun hc => he (by simp [hc])
      · intro l hl
        by_cases he : (featuresOf (lowerChars el.text.data)).isEmpty
        · exact absurd hl (by simp [buildRecord, he])
        · have : l = featuresOf (lowerChars el.text.data) := by
            have := hl
            simp [buildRecord, he] at this
            exact this.symm
          rw [this]
          exact fun hc => he (by simp [hc])
      · intro hei
        subst hei
        simp [buildRecord]

theorem c10_no_empty_optional_fields_witness :
    ((["Pool", "Security"] : List String) ≠ []) ∧ recC9.images = none :=
  ⟨(c10_no_empty_optional_fields fragC9 true recC9 (by decide)).2.1 ["Pool", "Security"]
      (by decide),
    (c10_no_empty_optional_fields fragC9 false recC9 (by decide)).2.2 rfl⟩
